import Mathlib

/-!
Shallow embedding of the incremental speech-synthesis pipeline of
backend/main.py: the voice_chat endpoint (lines 844-1077) with its
audio_stream generator, the ElevenLabs synthesis helpers
eleven_stream_tts / eleven_tts_once (lines 217-252), the format
negotiation (lines 901-912) and the voice resolution (lines 856-861).

Pure data (text, audio bytes) is modelled with List Char and List Nat.
The generator is modelled as a function from the upstream generation
events and a synthesis oracle to the ordered list of observable effects
(synthesis calls, yielded audio chunks, the turn insert, server-side
error logging).
-/

namespace CE

/-- Audio bytes: one opaque blob of synthesized audio. -/
abbrev Blob := List Nat

/-- Sentence-terminal punctuation, the character class [.!?] in the
regex at main.py line 971. -/
def isTermPunct (c : Char) : Bool :=
  c == '.' || c == '!' || c == '?'

/-- Whitespace as matched by the regex class \s (ASCII part) and by
str.strip at line 1008. -/
def isPyWS (c : Char) : Bool :=
  c == ' ' || c == '\t' || c == '\n' || c == '\r' ||
  c == Char.ofNat 11 || c == Char.ofNat 12

/-- Split a maximal run of whitespace off the front of a buffer. -/
def takeWS : List Char → List Char × List Char
  | [] => ([], [])
  | c :: cs =>
    if isPyWS c then
      let p := takeWS cs
      (c :: p.1, p.2)
    else ([], c :: cs)

/-- One regex search re.search(r"([\s\S]*?[\.!?])\s+", buffer)
(main.py line 971): the lazy group means the match ends at the first
position i with a terminal-punctuation character directly followed by
whitespace; the greedy \s+ then takes the maximal whitespace run.
Returns (group 1, matched whitespace run, rest after the match). -/
def splitSentence : List Char → Option (List Char × List Char × List Char)
  | [] => none
  | [_] => none
  | c :: d :: rest =>
    if isTermPunct c && isPyWS d then
      let p := takeWS (d :: rest)
      some ([c], p.1, p.2)
    else
      match splitSentence (d :: rest) with
      | some (s, w, r) => some (c :: s, w, r)
      | none => none

/-- The while-loop of lines 970-975: repeatedly cut complete sentences
off the buffer until no match remains.  Fuel-indexed so that it is a
structural recursion; each cut removes at least two characters, so
fuel = buffer length always suffices. -/
def emitLoopF : Nat → List Char → List (List Char × List Char) × List Char
  | 0, b => ([], b)
  | Nat.succ f, b =>
    match splitSentence b with
    | none => ([], b)
    | some (s, w, r) =>
      let p := emitLoopF f r
      ((s, w) :: p.1, p.2)

/-- All sentences (with the whitespace run each match consumed) that the
while-loop emits from a buffer, and the residual buffer. -/
def emitLoop (b : List Char) : List (List Char × List Char) × List Char :=
  emitLoopF b.length b

/-- Result of one eleven_stream_tts call as observed by the generator:
either it completes yielding a chunk sequence, or it raises after
yielding a prefix of chunks (possibly none). -/
inductive StreamRes
  | ok (chunks : List Blob)
  | fail (pre : List Blob)
deriving DecidableEq

/-- Result of one eleven_tts_once call: the full audio blob, or a raise. -/
inductive OnceRes
  | ok (b : Blob)
  | fail
deriving DecidableEq

/-- Behavior of the remote synthesis provider for one SentenceUnit:
what the streaming call does, and what the one-shot call would do. -/
structure SynthBehavior where
  stream : StreamRes
  once : OnceRes
deriving DecidableEq

/-- Synthesis oracle: behavior of the provider for the n-th synthesis
unit of the request (0-based, in processing order). -/
abbrev Env := Nat → SynthBehavior

/-- Observable effects of the audio_stream generator, in program order. -/
inductive Ev
  | streamCall (unit : Nat) (text : List Char) (voice : String) (mime : String)
  | onceCall (unit : Nat) (text : List Char) (voice : String) (mime : String)
  | chunk (unit : Nat) (data : Blob)
  | persist (userText : String) (assistantText : List Char) (voice : String)
  | errorLog
deriving DecidableEq

/-- The inline conditional ("audio/pcm" if pcm_requested else "audio/mpeg")
appearing at every call site and at the response headers. -/
def mimeOf (pcm : Bool) : String :=
  if pcm then "audio/pcm" else "audio/mpeg"

/-- Forwarding a chunk sequence: each nonempty chunk is yielded
(the guard "if chunk:" at lines 989 and 1021). -/
def chunkEvs (i : Nat) (bs : List Blob) : List Ev :=
  (bs.filter fun b => !b.isEmpty).map (Ev.chunk i)

/-- Synthesis of one mid-stream sentence, lines 977-1003: try the
streaming call; on any exception fall back to the one-shot call with the
same text and yield its blob as a single chunk; a failing fallback is
swallowed (the bare "pass"). -/
def processA (env : Env) (pcm : Bool) (v : String) (i : Nat) (t : List Char) :
    List Ev :=
  Ev.streamCall i t v (mimeOf pcm) ::
    match (env i).stream with
    | StreamRes.ok cs => chunkEvs i cs
    | StreamRes.fail pre =>
      chunkEvs i pre ++
        Ev.onceCall i t v (mimeOf pcm) ::
          match (env i).once with
          | OnceRes.ok b => if b.isEmpty then [] else [Ev.chunk i b]
          | OnceRes.fail => []

/-- Synthesis of the flushed trailing remainder, lines 1010-1031: the
same events as the mid-stream path, but the fallback call is NOT inside
an inner try, so a failing fallback raises to the outer handler.  The
Bool is true when no exception escapes this block. -/
def processB (env : Env) (pcm : Bool) (v : String) (i : Nat) (t : List Char) :
    List Ev × Bool :=
  (processA env pcm v i t,
    match (env i).stream with
    | StreamRes.ok _ => true
    | StreamRes.fail _ =>
      match (env i).once with
      | OnceRes.ok _ => true
      | OnceRes.fail => false)

/-- Mutable state of the audio_stream generator. -/
structure RunState where
  buffer : List Char
  assistant : List Char
  unitIdx : Nat
  trace : List Ev
deriving DecidableEq

def initState : RunState := ⟨[], [], 0, []⟩

/-- Process a batch of sentences cut from the buffer (the body of the
while-loop): per sentence, append its text to assistant_text (line 976,
note: the matched whitespace run is NOT appended) and synthesize it. -/
def processUnits (env : Env) (pcm : Bool) (v : String) :
    RunState → List (List Char × List Char) → RunState
  | st, [] => st
  | st, u :: us =>
    processUnits env pcm v
      { st with
        assistant := st.assistant ++ u.1
        unitIdx := st.unitIdx + 1
        trace := st.trace ++ processA env pcm v st.unitIdx u.1 }
      us

/-- Handling of one content_block_delta event, lines 967-1003: skip empty
text pieces, otherwise extend the buffer and run the sentence loop. -/
def feedDelta (env : Env) (pcm : Bool) (v : String) (st : RunState)
    (piece : List Char) : RunState :=
  if piece.isEmpty then st
  else
    let p := emitLoop (st.buffer ++ piece)
    processUnits env pcm v { st with buffer := p.2 } p.1

/-- Events of the upstream generation stream as consumed by the for-loop
at line 956: a text delta, the message_stop signal, or an exception
raised while opening or iterating the stream. -/
inductive GenEvent
  | delta (s : List Char)
  | stop
  | error
deriving DecidableEq

/-- The for-loop over the generation stream: deltas are fed to the
segmenter, message_stop breaks out, an upstream exception aborts
(second component true means the exception propagates to the outer
try of the generator). -/
def runEvents (env : Env) (pcm : Bool) (v : String) :
    List GenEvent → RunState → RunState × Bool
  | [], st => (st, false)
  | GenEvent.delta s :: rest, st =>
    runEvents env pcm v rest (feedDelta env pcm v st s)
  | GenEvent.stop :: _, st => (st, false)
  | GenEvent.error :: _, st => (st, true)

/-- The flush of the residual buffer, lines 1007-1031: if the buffer has
any non-whitespace character, append it to assistant_text and synthesize
it on the no-inner-try path.  The Bool is true when no exception
escaped. -/
def flushStep (env : Env) (pcm : Bool) (v : String) (st : RunState) :
    RunState × Bool :=
  if st.buffer.any fun c => !isPyWS c then
    let st1 := { st with assistant := st.assistant ++ st.buffer }
    let p := processB env pcm v st1.unitIdx st1.buffer
    ({ st1 with
        unitIdx := st1.unitIdx + 1
        trace := st1.trace ++ p.1 }, p.2)
  else (st, true)

/-- Python truthiness of "voice_id or default": None and the empty
string both fall back to the default (lines 858 and 1050). -/
def voiceOr (vp : Option String) (dflt : String) : String :=
  match vp with
  | none => dflt
  | some s => if s = "" then dflt else s

/-- The turn-persistence block, lines 1033-1053: executed only when a
conversation was resolved before the stream started; one
ConversationTurn insert with the accumulated assistant text and the
resolved voice.  (Its own try/except swallows storage errors; the
elapsed-time field is real time and is not modelled.) -/
def persistStep (hasConv : Bool) (userMsg : String) (vp : Option String)
    (dflt : String) (st : RunState) : RunState :=
  if hasConv then
    { st with
        trace := st.trace ++ [Ev.persist userMsg st.assistant (voiceOr vp dflt)] }
  else st

/-- Result of running the generator to completion.  callerError records
whether an exception escaped the generator to the HTTP transport; the
outer try at lines 1057-1062 catches every Exception and only logs it,
so the generator always terminates silently. -/
structure RunOut where
  state : RunState
  callerError : Bool
deriving DecidableEq

/-- The whole audio_stream generator, lines 914-1062: consume the
generation stream feeding the segmenter and synthesizing each sentence;
on upstream exception skip flush and persistence and just log; otherwise
flush the residual buffer (an exception escaping the flush also skips
persistence) and then persist the turn once. -/
def run (env : Env) (pcm : Bool) (hasConv : Bool) (userMsg : String)
    (vp : Option String) (dflt : String) (events : List GenEvent) : RunOut :=
  let v := voiceOr vp dflt
  let p := runEvents env pcm v events initState
  if p.2 then
    ⟨{ p.1 with trace := p.1.trace ++ [Ev.errorLog] }, false⟩
  else
    let q := flushStep env pcm v p.1
    if q.2 then
      ⟨persistStep hasConv userMsg vp dflt q.1, false⟩
    else
      ⟨{ q.1 with trace := q.1.trace ++ [Ev.errorLog] }, false⟩

/-- ASCII lowercasing, modelling str.lower() on header values. -/
def toLowerAscii (s : List Char) : List Char :=
  s.map fun c => if 'A' ≤ c ∧ c ≤ 'Z' then Char.ofNat (c.toNat + 32) else c

/-- needle occurs at the front of hay. -/
def leadsWith : List Char → List Char → Bool
  | [], _ => true
  | _ :: _, [] => false
  | a :: as, b :: bs => a == b && leadsWith as bs

/-- Python substring containment: needle in hay. -/
def containsSub (needle : List Char) : List Char → Bool
  | [] => needle.isEmpty
  | c :: t => leadsWith needle (c :: t) || containsSub needle t

/-- os.getenv("PCM_STREAMING_ENABLED", "false").lower() == "true"
(line 902): the process-wide feature flag gating raw-sample output. -/
def pcmFlagEnabled (envVal : Option (List Char)) : Bool :=
  toLowerAscii (envVal.getD "false".toList) == "true".toList

/-- Line 912: pcm_requested = flag and ("audio/pcm" in accept.lower()
or platform.lower() == "ios"). -/
def pcmRequested (pcmEnabled : Bool) (accept platform : List Char) : Bool :=
  pcmEnabled &&
    (containsSub "audio/pcm".toList (toLowerAscii accept) ||
      toLowerAscii platform == "ios".toList)

/-- The negotiated output format. -/
inductive Format
  | compressed
  | raw
deriving DecidableEq

/-- Format negotiation as a total function of the Accept-style header,
the client-platform hint and the feature flag (lines 901-912). -/
def selectFormat (pcmEnabled : Bool) (accept platform : List Char) : Format :=
  if pcmRequested pcmEnabled accept platform then Format.raw
  else Format.compressed

/-- The four predefined voices, AVAILABLE_VOICES at lines 323-348. -/
def validVoiceIds : List String :=
  ["21m00Tcm4TlvDq8ikWAM", "AZnzlk1XvdvUeBnXmlld",
   "EXAVITQu4vr4xnSDxMaL", "ErXwobaYiN019PkySvjV"]

/-- What the voice_chat endpoint returns when validation passes:
the declared content type, the X-Audio-Format header value (line 1071),
and the generator run. -/
structure VoiceChatResponse where
  mediaType : String
  xAudioFormat : String
  out : RunOut
deriving DecidableEq

/-- The voice_chat endpoint, lines 844-1077: resolve and validate the
voice before anything else (an invalid id is HTTP 400 and nothing runs),
negotiate the format once, then build the streaming response whose body
is the audio_stream generator. -/
def voiceChat (dflt : String) (flagEnv : Option (List Char))
    (accept platform : List Char) (vp : Option String) (userMsg : String)
    (hasConv : Bool) (env : Env) (events : List GenEvent) :
    Except Nat VoiceChatResponse :=
  let selected := voiceOr vp dflt
  if selected ∈ validVoiceIds then
    let pcm := pcmRequested (pcmFlagEnabled flagEnv) accept platform
    Except.ok
      { mediaType := mimeOf pcm
        xAudioFormat := if pcm then "pcm" else "mp3"
        out := run env pcm hasConv userMsg vp dflt events }
  else Except.error 400

instance : DecidableEq (Except Nat VoiceChatResponse) := fun x y =>
  match x, y with
  | Except.error a, Except.error b =>
    if h : a = b then isTrue (by rw [h])
    else isFalse (by intro hc; injection hc; contradiction)
  | Except.error _, Except.ok _ => isFalse (by intro hc; exact Except.noConfusion hc)
  | Except.ok _, Except.error _ => isFalse (by intro hc; exact Except.noConfusion hc)
  | Except.ok a, Except.ok b =>
    if h : a = b then isTrue (by rw [h])
    else isFalse (by intro hc; injection hc; contradiction)

/-- The (unit, data) sequence of forwarded audio chunks, in order. -/
def chunkSeq : List Ev → List (Nat × Blob)
  | [] => []
  | Ev.chunk i d :: t => (i, d) :: chunkSeq t
  | _ :: t => chunkSeq t

/-- The sequence of turn inserts in a trace. -/
def persists : List Ev → List (String × List Char × String)
  | [] => []
  | Ev.persist u a v :: t => (u, a, v) :: persists t
  | _ :: t => persists t

/-- The sequence of streaming synthesis calls in a trace. -/
def streamCalls : List Ev → List (Nat × List Char × String × String)
  | [] => []
  | Ev.streamCall i x v m :: t => (i, x, v, m) :: streamCalls t
  | _ :: t => streamCalls t

/-- The sequence of one-shot fallback calls in a trace. -/
def onceCalls : List Ev → List (Nat × List Char × String × String)
  | [] => []
  | Ev.onceCall i x v m :: t => (i, x, v, m) :: onceCalls t
  | _ :: t => onceCalls t

/-- Voices passed to synthesis calls, in order. -/
def callVoices : List Ev → List String
  | [] => []
  | Ev.streamCall _ _ v _ :: t => v :: callVoices t
  | Ev.onceCall _ _ v _ :: t => v :: callVoices t
  | _ :: t => callVoices t

/-- Output mime types passed to synthesis calls, in order. -/
def callMimes : List Ev → List String
  | [] => []
  | Ev.streamCall _ _ _ m :: t => m :: callMimes t
  | Ev.onceCall _ _ _ m :: t => m :: callMimes t
  | _ :: t => callMimes t

/-- The audio the generator forwards for synthesis unit i: the streamed
chunks when streaming completes, otherwise the chunks streamed before
the failure followed by the fallback blob when the fallback succeeds;
empty chunks are dropped. -/
def expChunks (env : Env) (i : Nat) : List Blob :=
  match (env i).stream with
  | StreamRes.ok cs => cs.filter fun b => !b.isEmpty
  | StreamRes.fail pre =>
    (pre.filter fun b => !b.isEmpty) ++
      match (env i).once with
      | OnceRes.ok b => if b.isEmpty then [] else [b]
      | OnceRes.fail => []

/-- Normal form of the chunk sequence after n units: all of unit 0,
then all of unit 1, and so on. -/
def chunkNF (env : Env) (n : Nat) : List (Nat × Blob) :=
  (List.range n).flatMap fun i => (expChunks env i).map fun d => (i, d)

/-- Every synthesis call in an event carries this voice and mime. -/
def callOk (pcm : Bool) (v : String) : Ev → Prop
  | Ev.streamCall _ _ vv m => vv = v ∧ m = mimeOf pcm
  | Ev.onceCall _ _ vv m => vv = v ∧ m = mimeOf pcm
  | _ => True

/-- Invariant carried through the generator: the chunk sequence is in
unit normal form, no turn insert has happened yet, and every synthesis
call used the resolved voice and the negotiated mime type. -/
def Inv (env : Env) (pcm : Bool) (v : String) (st : RunState) : Prop :=
  chunkSeq st.trace = chunkNF env st.unitIdx ∧
  persists st.trace = [] ∧
  ∀ e ∈ st.trace, callOk pcm v e

/-- The client closes the outbound channel while the generator is
suspended at its k-th yield: GeneratorExit is raised there, nothing in
the generator catches it, so no event after the k-th chunk happens. -/
def truncAt : Nat → List Ev → List Ev
  | _, [] => []
  | k, Ev.chunk i d :: es =>
    if k ≤ 1 then [Ev.chunk i d] else Ev.chunk i d :: truncAt (k - 1) es
  | k, e :: es => e :: truncAt k es

/-- True when the upstream stream raises before producing any text
(empty deltas produce no text and are skipped by "if text_piece:"). -/
def errorBeforeText : List GenEvent → Bool
  | [] => false
  | GenEvent.error :: _ => true
  | GenEvent.delta s :: rest => s.isEmpty && errorBeforeText rest
  | GenEvent.stop :: _ => false

/-- Decidable form of: the flushed remainder (if one will be emitted)
does not have both its streaming call and its fallback call fail. -/
def flushSafeB (env : Env) (st : RunState) : Bool :=
  !(st.buffer.any fun c => !isPyWS c) ||
    match (env st.unitIdx).stream with
    | StreamRes.ok _ => true
    | StreamRes.fail _ =>
      match (env st.unitIdx).once with
      | OnceRes.ok _ => true
      | OnceRes.fail => false

/-! ## Concrete fixtures used to evaluate the pipeline on small inputs -/

/-- A provider that always streams one chunk [1]; fallback would give [9]. -/
def okEnv : Env := fun _ => ⟨StreamRes.ok [[1]], OnceRes.ok [9]⟩

/-- The documented default of ELEVENLABS_DEFAULT_VOICE (line 857). -/
def defaultVoiceId : String := "21m00Tcm4TlvDq8ikWAM"

/-- The end-to-end scenario of the spec, section 8: five deltas then a
normal end of stream. -/
def c1events : List GenEvent :=
  [GenEvent.delta "Hello".toList, GenEvent.delta " there.".toList,
   GenEvent.delta " How are".toList, GenEvent.delta " you".toList,
   GenEvent.delta " today?".toList, GenEvent.stop]

/-- One full sentence arrives, then the upstream stream raises. -/
def c3events : List GenEvent := [GenEvent.delta "Hi. ".toList, GenEvent.error]

/-- One full sentence arrives, then a normal end of stream. -/
def c3wevents : List GenEvent := [GenEvent.delta "Hi. ".toList, GenEvent.stop]

/-- A provider whose streaming and one-shot calls both always fail. -/
def c4env : Env := fun _ => ⟨StreamRes.fail [], OnceRes.fail⟩

/-- A single unterminated fragment then a normal end of stream. -/
def c4events : List GenEvent := [GenEvent.delta "Hi".toList, GenEvent.stop]

/-- A provider whose streaming call yields [2] then raises; the one-shot
fallback returns [3]. -/
def c5env : Env := fun _ => ⟨StreamRes.fail [[2]], OnceRes.ok [3]⟩

/-- Two complete sentences then a normal end of stream. -/
def c8events : List GenEvent := [GenEvent.delta "A. B. ".toList, GenEvent.stop]

/-- The upstream stream raises before producing anything. -/
def c9events : List GenEvent := [GenEvent.error]

/-- The response voiceChat produces for the c1 scenario with no explicit
voice, no PCM flag and empty headers. -/
def c7resp : VoiceChatResponse :=
  { mediaType := "audio/mpeg"
    xAudioFormat := "mp3"
    out := run okEnv false true "u" none defaultVoiceId c1events }

/-- The response voiceChat produces for the c8 scenario with no explicit
voice, no PCM flag and empty headers. -/
def c10resp : VoiceChatResponse :=
  { mediaType := "audio/mpeg"
    xAudioFormat := "mp3"
    out := run okEnv false true "u" none defaultVoiceId c8events }

/-! ## Helper lemmas about trace projections -/

theorem chunkSeq_append (a b : List Ev) :
    chunkSeq (a ++ b) = chunkSeq a ++ chunkSeq b := by
  induction a with
  | nil => rfl
  | cons e t ih => cases e <;> simp [chunkSeq, ih]

theorem persists_append (a b : List Ev) :
    persists (a ++ b) = persists a ++ persists b := by
  induction a with
  | nil => rfl
  | cons e t ih => cases e <;> simp [persists, ih]

theorem streamCalls_append (a b : List Ev) :
    streamCalls (a ++ b) = streamCalls a ++ streamCalls b := by
  induction a with
  | nil => rfl
  | cons e t ih => cases e <;> simp [streamCalls, ih]

theorem onceCalls_append (a b : List Ev) :
    onceCalls (a ++ b) = onceCalls a ++ onceCalls b := by
  induction a with
  | nil => rfl
  | cons e t ih => cases e <;> simp [onceCalls, ih]

theorem chunkSeq_mapChunk (i : Nat) (l : List Blob) :
    chunkSeq (l.map (Ev.chunk i)) = l.map fun d => (i, d) := by
  induction l with
  | nil => rfl
  | cons b t ih => simp [chunkSeq, ih]

theorem persists_mapChunk (i : Nat) (l : List Blob) :
    persists (l.map (Ev.chunk i)) = [] := by
  induction l with
  | nil => rfl
  | cons b t ih => simp [persists, ih]

theorem streamCalls_mapChunk (i : Nat) (l : List Blob) :
    streamCalls (l.map (Ev.chunk i)) = [] := by
  induction l with
  | nil => rfl
  | cons b t ih => simp [streamCalls, ih]

theorem onceCalls_mapChunk (i : Nat) (l : List Blob) :
    onceCalls (l.map (Ev.chunk i)) = [] := by
  induction l with
  | nil => rfl
  | cons b t ih => simp [onceCalls, ih]

/-! ## Behavior of one synthesis unit -/

theorem processB_fst (env : Env) (pcm : Bool) (v : String) (i : Nat)
    (t : List Char) : (processB env pcm v i t).1 = processA env pcm v i t := rfl

theorem processA_chunkSeq (env : Env) (pcm : Bool) (v : String) (i : Nat)
    (t : List Char) :
    chunkSeq (processA env pcm v i t) = (expChunks env i).map fun d => (i, d) := by
  cases h1 : (env i).stream with
  | ok cs =>
    simp [processA, expChunks, h1, chunkEvs, chunkSeq, chunkSeq_mapChunk]
  | fail pre =>
    cases h2 : (env i).once with
    | ok b =>
      by_cases hb : b.isEmpty <;>
        simp [processA, expChunks, h1, h2, hb, chunkEvs, chunkSeq,
          chunkSeq_append, chunkSeq_mapChunk]
    | fail =>
      simp [processA, expChunks, h1, h2, chunkEvs, chunkSeq,
        chunkSeq_append, chunkSeq_mapChunk]

theorem processA_persists (env : Env) (pcm : Bool) (v : String) (i : Nat)
    (t : List Char) : persists (processA env pcm v i t) = [] := by
  cases h1 : (env i).stream with
  | ok cs => simp [processA, h1, chunkEvs, persists, persists_mapChunk]
  | fail pre =>
    cases h2 : (env i).once with
    | ok b =>
      by_cases hb : b.isEmpty <;>
        simp [processA, h1, h2, hb, chunkEvs, persists,
          persists_append, persists_mapChunk]
    | fail =>
      simp [processA, h1, h2, chunkEvs, persists, persists_append,
        persists_mapChunk]

theorem processA_streamCalls (env : Env) (pcm : Bool) (v : String) (i : Nat)
    (t : List Char) :
    streamCalls (processA env pcm v i t) = [(i, t, v, mimeOf pcm)] := by
  cases h1 : (env i).stream with
  | ok cs => simp [processA, h1, chunkEvs, streamCalls, streamCalls_mapChunk]
  | fail pre =>
    cases h2 : (env i).once with
    | ok b =>
      by_cases hb : b.isEmpty <;>
        simp [processA, h1, h2, hb, chunkEvs, streamCalls,
          streamCalls_append, streamCalls_mapChunk]
    | fail =>
      simp [processA, h1, h2, chunkEvs, streamCalls, streamCalls_append,
        streamCalls_mapChunk]

theorem processA_onceCalls_ok (env : Env) (pcm : Bool) (v : String) (i : Nat)
    (t : List Char) (cs : List Blob) (h1 : (env i).stream = StreamRes.ok cs) :
    onceCalls (processA env pcm v i t) = [] := by
  simp [processA, h1, chunkEvs, onceCalls, onceCalls_mapChunk]

theorem processA_onceCalls_fail (env : Env) (pcm : Bool) (v : String) (i : Nat)
    (t : List Char) (pre : List Blob)
    (h1 : (env i).stream = StreamRes.fail pre) :
    onceCalls (processA env pcm v i t) = [(i, t, v, mimeOf pcm)] := by
  cases h2 : (env i).once with
  | ok b =>
    by_cases hb : b.isEmpty <;>
      simp [processA, h1, h2, hb, chunkEvs, onceCalls, onceCalls_append,
        onceCalls_mapChunk]
  | fail =>
    simp [processA, h1, h2, chunkEvs, onceCalls, onceCalls_append,
      onceCalls_mapChunk]

theorem processA_callOk (env : Env) (pcm : Bool) (v : String) (i : Nat)
    (t : List Char) : ∀ e ∈ processA env pcm v i t, callOk pcm v e := by
  intro e he
  cases h1 : (env i).stream with
  | ok cs =>
    simp [processA, h1, chunkEvs] at he
    rcases he with h | ⟨b, _, h⟩ <;> subst h <;> simp [callOk]
  | fail pre =>
    cases h2 : (env i).once with
    | ok b =>
      by_cases hb : b.isEmpty <;>
        · simp [processA, h1, h2, hb, chunkEvs] at he
          rcases he with h | ⟨c, _, h⟩ | h | h <;> try subst h
          all_goals simp [callOk]
    | fail =>
      simp [processA, h1, h2, chunkEvs] at he
      rcases he with h | ⟨c, _, h⟩ | h <;> subst h <;> simp [callOk]

theorem chunkNF_zero (env : Env) : chunkNF env 0 = [] := rfl

theorem chunkNF_succ (env : Env) (n : Nat) :
    chunkNF env (n + 1)
      = chunkNF env n ++ (expChunks env n).map fun d => (n, d) := by
  simp [chunkNF, List.range_succ]

/-! ## The generator invariant -/

theorem inv_init (env : Env) (pcm : Bool) (v : String) :
    Inv env pcm v initState := by
  refine ⟨rfl, rfl, ?_⟩
  intro e he
  simp [initState] at he

theorem inv_extend (env : Env) (pcm : Bool) (v : String) (st st2 : RunState)
    (t : List Char) (h : Inv env pcm v st)
    (h2 : st2.trace = st.trace ++ processA env pcm v st.unitIdx t)
    (h3 : st2.unitIdx = st.unitIdx + 1) :
    Inv env pcm v st2 := by
  obtain ⟨i1, i2, i3⟩ := h
  refine ⟨?_, ?_, ?_⟩
  · rw [h2, h3, chunkSeq_append, i1, processA_chunkSeq, chunkNF_succ]
  · rw [h2, persists_append, i2, processA_persists]; rfl
  · intro e he
    rw [h2] at he
    rcases List.mem_append.mp he with h | h
    · exact i3 e h
    · exact processA_callOk env pcm v st.unitIdx t e h

theorem inv_processUnits (env : Env) (pcm : Bool) (v : String) :
    ∀ (us : List (List Char × List Char)) (st : RunState),
      Inv env pcm v st → Inv env pcm v (processUnits env pcm v st us) := by
  intro us
  induction us with
  | nil => intro st h; exact h
  | cons u t ih =>
    intro st h
    simp only [processUnits]
    exact ih _ (inv_extend env pcm v st _ u.1 h rfl rfl)

theorem inv_feedDelta (env : Env) (pcm : Bool) (v : String) (st : RunState)
    (piece : List Char) (h : Inv env pcm v st) :
    Inv env pcm v (feedDelta env pcm v st piece) := by
  unfold feedDelta
  by_cases hp : piece.isEmpty
  · simp [hp]; exact h
  · simp [hp]
    exact inv_processUnits env pcm v _ _ h

theorem inv_runEvents (env : Env) (pcm : Bool) (v : String) :
    ∀ (events : List GenEvent) (st : RunState),
      Inv env pcm v st → Inv env pcm v (runEvents env pcm v events st).1 := by
  intro events
  induction events with
  | nil => intro st h; exact h
  | cons e rest ih =>
    intro st h
    cases e with
    | delta s =>
      simp only [runEvents]
      exact ih _ (inv_feedDelta env pcm v st s h)
    | stop => exact h
    | error => exact h

theorem inv_flushStep (env : Env) (pcm : Bool) (v : String) (st : RunState)
    (h : Inv env pcm v st) : Inv env pcm v (flushStep env pcm v st).1 := by
  unfold flushStep
  by_cases hb : st.buffer.any fun c => !isPyWS c
  · simp only [hb, if_true, processB_fst]
    exact inv_extend env pcm v { st with assistant := st.assistant ++ st.buffer }
      _ st.buffer (by exact h) rfl rfl
  · simp [hb]; exact h

/-! ## Run-level lemmas -/

theorem chunkSeq_errorLog : chunkSeq [Ev.errorLog] = [] := rfl

theorem persists_errorLog : persists [Ev.errorLog] = [] := rfl

theorem chunkSeq_persistEv (u : String) (a : List Char) (v : String) :
    chunkSeq [Ev.persist u a v] = [] := rfl

theorem persists_persistEv (u : String) (a : List Char) (v : String) :
    persists [Ev.persist u a v] = [(u, a, v)] := rfl

theorem run_callerError (env : Env) (pcm hasConv : Bool) (userMsg : String)
    (vp : Option String) (dflt : String) (events : List GenEvent) :
    (run env pcm hasConv userMsg vp dflt events).callerError = false := by
  unfold run
  by_cases hp : (runEvents env pcm (voiceOr vp dflt) events initState).2
  · simp [hp]
  · by_cases hq :
      (flushStep env pcm (voiceOr vp dflt)
        (runEvents env pcm (voiceOr vp dflt) events initState).1).2 <;>
      simp [hp, hq]

/-- Case analysis on the final trace of the generator: either no turn
insert happened at all, or the trace is an insert-free prefix followed
by exactly one turn insert carrying the accumulated assistant text. -/
theorem run_split (env : Env) (pcm hasConv : Bool) (userMsg : String)
    (vp : Option String) (dflt : String) (events : List GenEvent) :
    persists (run env pcm hasConv userMsg vp dflt events).state.trace = [] ∨
    ∃ base,
      (run env pcm hasConv userMsg vp dflt events).state.trace
          = base ++ [Ev.persist userMsg
              (run env pcm hasConv userMsg vp dflt events).state.assistant
              (voiceOr vp dflt)]
        ∧ persists base = []
        ∧ chunkSeq (run env pcm hasConv userMsg vp dflt events).state.trace
            = chunkSeq base := by
  have hmid := inv_runEvents env pcm (voiceOr vp dflt) events initState
      (inv_init env pcm (voiceOr vp dflt))
  have hfl := inv_flushStep env pcm (voiceOr vp dflt) _ hmid
  unfold run
  by_cases hp : (runEvents env pcm (voiceOr vp dflt) events initState).2
  · left
    simp only [hp, if_true]
    rw [persists_append, hmid.2.1, persists_errorLog]; rfl
  · by_cases hq :
      (flushStep env pcm (voiceOr vp dflt)
        (runEvents env pcm (voiceOr vp dflt) events initState).1).2
    · simp only [hp, hq, if_true, if_false, Bool.false_eq_true, persistStep]
      by_cases hc : hasConv
      · right
        refine ⟨(flushStep env pcm (voiceOr vp dflt)
            (runEvents env pcm (voiceOr vp dflt) events initState).1).1.trace,
          ?_, hfl.2.1, ?_⟩
        · simp [hc]
        · simp [hc, chunkSeq_append, chunkSeq_persistEv]
      · left
        simp [hc, hfl.2.1]
    · left
      simp only [hp, hq, if_false, Bool.false_eq_true, if_true]
      rw [persists_append, hfl.2.1, persists_errorLog]; rfl

/-- Claim C2: audio chunks are forwarded in SentenceUnit emission
order with no interleaving: the chunk sequence of any run is exactly
the per-unit chunk lists of units 0, 1, ... concatenated in order,
each list in the order the synthesis call produced it. -/
theorem C2_chunks_forwarded_in_unit_order (env : Env) (pcm hasConv : Bool)
    (userMsg : String) (vp : Option String) (dflt : String)
    (events : List GenEvent) :
    chunkSeq (run env pcm hasConv userMsg vp dflt events).state.trace
      = chunkNF env (run env pcm hasConv userMsg vp dflt events).state.unitIdx := by
  have hmid := inv_runEvents env pcm (voiceOr vp dflt) events initState
      (inv_init env pcm (voiceOr vp dflt))
  have hfl := inv_flushStep env pcm (voiceOr vp dflt) _ hmid
  unfold run
  by_cases hp : (runEvents env pcm (voiceOr vp dflt) events initState).2
  · simp only [hp, if_true]
    rw [chunkSeq_append, hmid.1, chunkSeq_errorLog, List.append_nil]
  · by_cases hq :
      (flushStep env pcm (voiceOr vp dflt)
        (runEvents env pcm (voiceOr vp dflt) events initState).1).2
    · simp only [hp, hq, if_true, if_false, Bool.false_eq_true, persistStep]
      by_cases hc : hasConv
      · simp only [hc, if_true]
        rw [chunkSeq_append, hfl.1, chunkSeq_persistEv, List.append_nil]
      · simp only [hc, if_false]
        exact hfl.1
    · simp only [hp, hq, if_false, Bool.false_eq_true, if_true]
      rw [chunkSeq_append, hfl.1, chunkSeq_errorLog, List.append_nil]

theorem run_callOk (env : Env) (pcm hasConv : Bool) (userMsg : String)
    (vp : Option String) (dflt : String) (events : List GenEvent) :
    ∀ e ∈ (run env pcm hasConv userMsg vp dflt events).state.trace,
      callOk pcm (voiceOr vp dflt) e := by
  have hmid := inv_runEvents env pcm (voiceOr vp dflt) events initState
      (inv_init env pcm (voiceOr vp dflt))
  have hfl := inv_flushStep env pcm (voiceOr vp dflt) _ hmid
  unfold run
  by_cases hp : (runEvents env pcm (voiceOr vp dflt) events initState).2
  · simp only [hp, if_true]
    intro e he
    rcases List.mem_append.mp he with h | h
    · exact hmid.2.2 e h
    · simp at h; subst h; trivial
  · by_cases hq :
      (flushStep env pcm (voiceOr vp dflt)
        (runEvents env pcm (voiceOr vp dflt) events initState).1).2
    · simp only [hp, hq, if_true, if_false, Bool.false_eq_true, persistStep]
      by_cases hc : hasConv
      · simp only [hc, if_true]
        intro e he
        rcases List.mem_append.mp he with h | h
        · exact hfl.2.2 e h
        · simp at h; subst h; trivial
      · simp only [hc, if_false]
        exact hfl.2.2
    · simp only [hp, hq, if_false, Bool.false_eq_true, if_true]
      intro e he
      rcases List.mem_append.mp he with h | h
      · exact hfl.2.2 e h
      · simp at h; subst h; trivial

theorem callMimes_of_callOk (pcm : Bool) (v : String) :
    ∀ tr : List Ev, (∀ e ∈ tr, callOk pcm v e) →
      ∀ m ∈ callMimes tr, m = mimeOf pcm := by
  intro tr
  induction tr with
  | nil => intro _ m hm; simp [callMimes] at hm
  | cons e t ih =>
    intro h m hm
    have ht : ∀ x ∈ t, callOk pcm v x := fun x hx => h x (List.mem_cons_of_mem e hx)
    have he : callOk pcm v e := h e (List.mem_cons_self e t)
    cases e with
    | streamCall i x vv mm =>
      simp [callMimes] at hm
      rcases hm with hm | hm
      · subst hm; exact he.2
      · exact ih ht m hm
    | onceCall i x vv mm =>
      simp [callMimes] at hm
      rcases hm with hm | hm
      · subst hm; exact he.2
      · exact ih ht m hm
    | chunk i d => simp [callMimes] at hm; exact ih ht m hm
    | persist a b c => simp [callMimes] at hm; exact ih ht m hm
    | errorLog => simp [callMimes] at hm; exact ih ht m hm

theorem callVoices_of_callOk (pcm : Bool) (v : String) :
    ∀ tr : List Ev, (∀ e ∈ tr, callOk pcm v e) →
      ∀ x ∈ callVoices tr, x = v := by
  intro tr
  induction tr with
  | nil => intro _ x hx; simp [callVoices] at hx
  | cons e t ih =>
    intro h x hx
    have ht : ∀ y ∈ t, callOk pcm v y := fun y hy => h y (List.mem_cons_of_mem e hy)
    have he : callOk pcm v e := h e (List.mem_cons_self e t)
    cases e with
    | streamCall i s vv mm =>
      simp [callVoices] at hx
      rcases hx with hx | hx
      · subst hx; exact he.1
      · exact ih ht x hx
    | onceCall i s vv mm =>
      simp [callVoices] at hx
      rcases hx with hx | hx
      · subst hx; exact he.1
      · exact ih ht x hx
    | chunk i d => simp [callVoices] at hx; exact ih ht x hx
    | persist a b c => simp [callVoices] at hx; exact ih ht x hx
    | errorLog => simp [callVoices] at hx; exact ih ht x hx

/-! ## Lemmas for the finalization claims -/

theorem runEvents_noError (env : Env) (pcm : Bool) (v : String) :
    ∀ (events : List GenEvent) (st : RunState), GenEvent.error ∉ events →
      (runEvents env pcm v events st).2 = false := by
  intro events
  induction events with
  | nil => intro st _; rfl
  | cons e rest ih =>
    intro st h
    cases e with
    | delta s =>
      simp only [runEvents]
      exact ih _ fun hc => h (List.mem_cons_of_mem _ hc)
    | stop => rfl
    | error => exact absurd (List.mem_cons_self _ _) h

theorem flushSafe_ok (env : Env) (pcm : Bool) (v : String) (st : RunState)
    (h : flushSafeB env st = true) : (flushStep env pcm v st).2 = true := by
  unfold flushSafeB at h
  unfold flushStep
  by_cases hb : st.buffer.any fun c => !isPyWS c
  · simp only [hb, if_true, processB]
    simp only [hb, Bool.not_true, Bool.false_or] at h
    exact h
  · simp [hb]

theorem feedDelta_empty (env : Env) (pcm : Bool) (v : String) (st : RunState)
    (piece : List Char) (h : piece.isEmpty = true) :
    feedDelta env pcm v st piece = st := by
  unfold feedDelta
  simp [h]

theorem runEvents_errorBeforeText (env : Env) (pcm : Bool) (v : String) :
    ∀ (events : List GenEvent) (st : RunState), errorBeforeText events = true →
      runEvents env pcm v events st = (st, true) := by
  intro events
  induction events with
  | nil => intro st h; simp [errorBeforeText] at h
  | cons e rest ih =>
    intro st h
    cases e with
    | delta s =>
      simp only [errorBeforeText, Bool.and_eq_true] at h
      simp only [runEvents, feedDelta_empty env pcm v st s h.1]
      exact ih st h.2
    | stop => simp [errorBeforeText] at h
    | error => rfl

/-! ## Disconnect truncation lemmas -/

theorem truncAt_makesPrefix :
    ∀ (k : Nat) (tr : List Ev), ∃ tail, tr = truncAt k tr ++ tail := by
  intro k tr
  induction tr generalizing k with
  | nil => exact ⟨[], rfl⟩
  | cons e es ih =>
    cases e with
    | chunk i d =>
      by_cases hk : k ≤ 1
      · exact ⟨es, by simp [truncAt, hk]⟩
      · obtain ⟨tail, ht⟩ := ih (k - 1)
        refine ⟨tail, ?_⟩
        simp only [truncAt, hk, if_false]
        rw [List.cons_append, ← ht]
    | streamCall i t v m =>
      obtain ⟨tail, ht⟩ := ih k
      exact ⟨tail, by simp only [truncAt]; rw [List.cons_append, ← ht]⟩
    | onceCall i t v m =>
      obtain ⟨tail, ht⟩ := ih k
      exact ⟨tail, by simp only [truncAt]; rw [List.cons_append, ← ht]⟩
    | persist u a v =>
      obtain ⟨tail, ht⟩ := ih k
      exact ⟨tail, by simp only [truncAt]; rw [List.cons_append, ← ht]⟩
    | errorLog =>
      obtain ⟨tail, ht⟩ := ih k
      exact ⟨tail, by simp only [truncAt]; rw [List.cons_append, ← ht]⟩

theorem truncAt_append :
    ∀ (t0 rest : List Ev) (k : Nat), 1 ≤ k → k ≤ (chunkSeq t0).length →
      truncAt k (t0 ++ rest) = truncAt k t0 := by
  intro t0
  induction t0 with
  | nil =>
    intro rest k h1 h2
    simp [chunkSeq] at h2
    omega
  | cons e es ih =>
    intro rest k h1 h2
    cases e with
    | chunk i d =>
      by_cases hk : k ≤ 1
      · simp [truncAt, hk]
      · have h1b : 1 ≤ k - 1 := by omega
        have h2b : k - 1 ≤ (chunkSeq es).length := by
          simp only [chunkSeq, List.length_cons] at h2
          omega
        simp only [List.cons_append, truncAt, hk, if_false]
        exact congrArg _ (ih rest (k - 1) h1b h2b)
    | streamCall i t v m =>
      simp only [chunkSeq] at h2
      simp only [List.cons_append, truncAt]
      exact congrArg _ (ih rest k h1 h2)
    | onceCall i t v m =>
      simp only [chunkSeq] at h2
      simp only [List.cons_append, truncAt]
      exact congrArg _ (ih rest k h1 h2)
    | persist u a v =>
      simp only [chunkSeq] at h2
      simp only [List.cons_append, truncAt]
      exact congrArg _ (ih rest k h1 h2)
    | errorLog =>
      simp only [chunkSeq] at h2
      simp only [List.cons_append, truncAt]
      exact congrArg _ (ih rest k h1 h2)

theorem persists_truncAt (tr : List Ev) (k : Nat) (h : persists tr = []) :
    persists (truncAt k tr) = [] := by
  obtain ⟨tail, ht⟩ := truncAt_makesPrefix k tr
  rw [ht, persists_append] at h
  exact (List.append_eq_nil.mp h).1

/-! ## Claim theorems -/

/-- Claim C1 (code bug): on the end-to-end scenario of spec section 8,
the code emits SentenceUnits "Hello there." and "How are you today?"
but drops the whitespace run that separated them (group(1) of the regex
excludes it, and assistant_text only accumulates group(1) plus the raw
residual buffer), so the concatenation assembled for persistence is
"Hello there.How are you today?" and does NOT reproduce the generated
text "Hello there. How are you today?". -/
theorem C1_transcript_drops_sentence_whitespace :
    (streamCalls (run okEnv false true "u" none defaultVoiceId c1events).state.trace).map
        (fun c => c.2.1)
      = ["Hello there.".toList, "How are you today?".toList]
    ∧ (run okEnv false true "u" none defaultVoiceId c1events).state.assistant
        = "Hello there.How are you today?".toList
    ∧ persists (run okEnv false true "u" none defaultVoiceId c1events).state.trace
        = [("u", "Hello there.How are you today?".toList, defaultVoiceId)]
    ∧ (run okEnv false true "u" none defaultVoiceId c1events).state.assistant
        ≠ "Hello there. How are you today?".toList := by
  decide

/-- Claim C3 counterexample: the upstream stream raises after the first
sentence has arrived and been synthesized (text arrived, audio was even
forwarded), yet the turn insert is executed zero times, not once: the
exception skips the persistence block. -/
theorem C3_persist_skipped_on_midstream_error :
    (run okEnv false true "u" none defaultVoiceId c3events).state.assistant
        = "Hi.".toList
    ∧ chunkSeq (run okEnv false true "u" none defaultVoiceId c3events).state.trace
        = [(0, [1])]
    ∧ persists (run okEnv false true "u" none defaultVoiceId c3events).state.trace
        = [] := by
  decide

/-- Claim C3 (amended): provided a conversation was resolved, the
upstream stream raises no error after opening, the client stays
connected, and the flushed trailing remainder (if any) does not have
both of its synthesis calls fail, the ConversationTurn insert is
executed exactly once, with the accumulated assistant text and the
resolved voice — however many per-sentence synthesis failures occurred
on the emitted sentences. -/
theorem C3_finalize_once_amended (env : Env) (pcm : Bool) (userMsg : String)
    (vp : Option String) (dflt : String) (events : List GenEvent)
    (hNoErr : GenEvent.error ∉ events)
    (hFlush : flushSafeB env
        (runEvents env pcm (voiceOr vp dflt) events initState).1 = true) :
    persists (run env pcm true userMsg vp dflt events).state.trace
      = [(userMsg,
          (run env pcm true userMsg vp dflt events).state.assistant,
          voiceOr vp dflt)] := by
  have hmid := inv_runEvents env pcm (voiceOr vp dflt) events initState
      (inv_init env pcm (voiceOr vp dflt))
  have hfl := inv_flushStep env pcm (voiceOr vp dflt) _ hmid
  have hp := runEvents_noError env pcm (voiceOr vp dflt) events initState hNoErr
  have hq := flushSafe_ok env pcm (voiceOr vp dflt) _ hFlush
  unfold run
  simp only [hp, Bool.false_eq_true, if_false, hq, if_true, persistStep]
  rw [persists_append, hfl.2.1, persists_persistEv]
  rfl

/-- Witness: a one-sentence request with a healthy provider persists
exactly one turn. -/
theorem C3_finalize_once_amended_check :
    persists (run okEnv false true "u" none defaultVoiceId c3wevents).state.trace
      = [("u", (run okEnv false true "u" none defaultVoiceId c3wevents).state.assistant,
          voiceOr none defaultVoiceId)] :=
  C3_finalize_once_amended okEnv false "u" none defaultVoiceId c3wevents
    (by decide) (by decide)

/-- Claim C4 (code bug): when both synthesis calls fail for the flushed
trailing remainder, the fallback exception escapes (the flush path,
lines 1023-1031, lacks the inner try of the sentence path), the
generator jumps to the outer handler, and NO turn is persisted at all:
the unit text is accumulated but lost, instead of being retained in a
persisted transcript. -/
theorem C4_flush_double_failure_aborts_persistence :
    (run c4env false true "u" none defaultVoiceId c4events).state.trace
        = [Ev.streamCall 0 "Hi".toList defaultVoiceId "audio/mpeg",
           Ev.onceCall 0 "Hi".toList defaultVoiceId "audio/mpeg",
           Ev.errorLog]
    ∧ (run c4env false true "u" none defaultVoiceId c4events).state.assistant
        = "Hi".toList
    ∧ persists (run c4env false true "u" none defaultVoiceId c4events).state.trace
        = []
    ∧ chunkSeq (run c4env false true "u" none defaultVoiceId c4events).state.trace
        = [] := by
  decide

/-- Claim C5: for every SentenceUnit (mid-stream path, and the flush
path emits the identical event list), the streaming call is attempted
first and exactly once; the one-shot fallback is invoked exactly when
the streaming call fails (before or after yielding chunks), with the
same unit text, voice and format; its result is forwarded as a single
chunk (dropped only when empty); and no event beyond this one
escalation occurs for the unit. -/
theorem C5_streaming_first_single_fallback (env : Env) (pcm : Bool)
    (v : String) (i : Nat) (t : List Char) :
    (processA env pcm v i t).head? = some (Ev.streamCall i t v (mimeOf pcm))
    ∧ streamCalls (processA env pcm v i t) = [(i, t, v, mimeOf pcm)]
    ∧ (processB env pcm v i t).1 = processA env pcm v i t
    ∧ (∀ cs, (env i).stream = StreamRes.ok cs →
        onceCalls (processA env pcm v i t) = [])
    ∧ (∀ pre, (env i).stream = StreamRes.fail pre →
        onceCalls (processA env pcm v i t) = [(i, t, v, mimeOf pcm)])
    ∧ (∀ pre b, (env i).stream = StreamRes.fail pre →
        (env i).once = OnceRes.ok b →
        processA env pcm v i t
          = Ev.streamCall i t v (mimeOf pcm) ::
              (chunkEvs i pre ++ Ev.onceCall i t v (mimeOf pcm) ::
                (if b.isEmpty then [] else [Ev.chunk i b])))
    ∧ (∀ pre, (env i).stream = StreamRes.fail pre →
        (env i).once = OnceRes.fail →
        processA env pcm v i t
          = Ev.streamCall i t v (mimeOf pcm) ::
              (chunkEvs i pre ++ [Ev.onceCall i t v (mimeOf pcm)])) := by
  refine ⟨rfl, processA_streamCalls env pcm v i t, rfl, ?_, ?_, ?_, ?_⟩
  · intro cs h1
    exact processA_onceCalls_ok env pcm v i t cs h1
  · intro pre h1
    exact processA_onceCalls_fail env pcm v i t pre h1
  · intro pre b h1 h2
    simp [processA, h1, h2]
  · intro pre h1 h2
    simp [processA, h1, h2]

/-- Witness: with a provider whose streaming call yields [2] then
raises and whose fallback returns [3], the unit produces exactly one
fallback call with the same text and a single fallback chunk. -/
theorem C5_streaming_first_single_fallback_check :
    onceCalls (processA c5env false "v" 0 "Hi.".toList)
        = [(0, "Hi.".toList, "v", mimeOf false)]
    ∧ processA c5env false "v" 0 "Hi.".toList
        = Ev.streamCall 0 "Hi.".toList "v" (mimeOf false) ::
            (chunkEvs 0 [[2]] ++ Ev.onceCall 0 "Hi.".toList "v" (mimeOf false) ::
              [Ev.chunk 0 [3]]) := by
  constructor
  · exact (C5_streaming_first_single_fallback c5env false "v" 0
      "Hi.".toList).2.2.2.2.1 [[2]] rfl
  · have h := (C5_streaming_first_single_fallback c5env false "v" 0
      "Hi.".toList).2.2.2.2.2.1 [[2]] [3] rfl rfl
    simpa using h

/-- Claim C6: format negotiation is a pure function of the Accept-style
header, the client-platform hint and the PCM_STREAMING_ENABLED flag:
evaluating it twice yields identical output, and whenever the feature
flag is unset (or anything other than "true") the raw-sample format is
never selected. -/
theorem C6_format_negotiation_pure_flag_gated (accept platform : List Char)
    (flagEnv : Option (List Char)) :
    selectFormat (pcmFlagEnabled flagEnv) accept platform
        = selectFormat (pcmFlagEnabled flagEnv) accept platform
    ∧ (pcmFlagEnabled flagEnv = false →
        selectFormat (pcmFlagEnabled flagEnv) accept platform
          = Format.compressed)
    ∧ selectFormat false accept platform = Format.compressed := by
  refine ⟨rfl, ?_, ?_⟩
  · intro h
    rw [h]
    simp [selectFormat, pcmRequested]
  · simp [selectFormat, pcmRequested]

/-- Witness: with the environment variable unset, even a request that
asks for PCM in both the Accept header and the platform hint gets the
compressed format. -/
theorem C6_format_negotiation_pure_flag_gated_check :
    selectFormat (pcmFlagEnabled none) "audio/pcm".toList "ios".toList
      = Format.compressed :=
  (C6_format_negotiation_pure_flag_gated "audio/pcm".toList "ios".toList
    none).2.1 (by decide)

/-- Claim C7: within one request the format negotiated before synthesis
is the one every synthesis call receives (streaming, fallback, and the
flush calls alike), and the response declares exactly that format in
its content type and X-Audio-Format header. -/
theorem C7_negotiated_format_everywhere (dflt : String)
    (flagEnv : Option (List Char)) (accept platform : List Char)
    (vp : Option String) (userMsg : String) (hasConv : Bool) (env : Env)
    (events : List GenEvent) (resp : VoiceChatResponse)
    (h : voiceChat dflt flagEnv accept platform vp userMsg hasConv env events
          = Except.ok resp) :
    resp.mediaType
        = mimeOf (pcmRequested (pcmFlagEnabled flagEnv) accept platform)
    ∧ resp.xAudioFormat
        = (if pcmRequested (pcmFlagEnabled flagEnv) accept platform
            then "pcm" else "mp3")
    ∧ ∀ m ∈ callMimes resp.out.state.trace,
        m = mimeOf (pcmRequested (pcmFlagEnabled flagEnv) accept platform) := by
  unfold voiceChat at h
  by_cases hv : voiceOr vp dflt ∈ validVoiceIds
  · simp only [hv, if_true, Except.ok.injEq] at h
    subst h
    refine ⟨rfl, rfl, ?_⟩
    exact callMimes_of_callOk _ _ _
      (run_callOk env _ hasConv userMsg vp dflt events)
  · simp [hv] at h

/-- Witness: a concrete request with empty headers and no flag gets
audio/mpeg everywhere. -/
theorem C7_negotiated_format_everywhere_check :
    c7resp.mediaType
      = mimeOf (pcmRequested (pcmFlagEnabled none) ([] : List Char) []) :=
  (C7_negotiated_format_everywhere defaultVoiceId none [] [] none "u" true
    okEnv c1events c7resp (by decide)).1

/-- Claim C8 counterexample: two sentences are generated; after the
first sentence is forwarded the client disconnects (the generator is
finalized at its first yield): the executed prefix contains the first
unit and its audio but NO turn insert at all, although a full run would
have persisted one — nothing is persisted on disconnect, not a
truncated transcript. -/
theorem C8_disconnect_persists_nothing_example :
    chunkSeq (truncAt 1
        (run okEnv false true "u" none defaultVoiceId c8events).state.trace)
      = [(0, [1])]
    ∧ persists (truncAt 1
        (run okEnv false true "u" none defaultVoiceId c8events).state.trace)
      = []
    ∧ persists (run okEnv false true "u" none defaultVoiceId c8events).state.trace
      ≠ [] := by
  decide

/-- Claim C8 (amended): if the client disconnects while audio is still
being forwarded (the generator is finalized at its k-th yield, with at
least one chunk produced and the cut inside the chunk sequence), then
the events that executed are a prefix of the full run (in particular no
further synthesis call is issued), and NO conversation turn is
persisted at all. -/
theorem C8_disconnect_amended (env : Env) (pcm hasConv : Bool)
    (userMsg : String) (vp : Option String) (dflt : String)
    (events : List GenEvent) (k : Nat) (h1 : 1 ≤ k)
    (h2 : k ≤ (chunkSeq
        (run env pcm hasConv userMsg vp dflt events).state.trace).length) :
    persists (truncAt k
        (run env pcm hasConv userMsg vp dflt events).state.trace) = []
    ∧ ∃ tail, (run env pcm hasConv userMsg vp dflt events).state.trace
        = truncAt k (run env pcm hasConv userMsg vp dflt events).state.trace
            ++ tail := by
  constructor
  · rcases run_split env pcm hasConv userMsg vp dflt events with
      h | ⟨base, hb, hpb, hcb⟩
    · exact persists_truncAt _ k h
    · rw [hcb] at h2
      rw [hb, truncAt_append base _ k h1 h2]
      exact persists_truncAt base k hpb
  · exact truncAt_makesPrefix k _

/-- Witness: disconnecting after the first chunk of the c1 scenario
leaves an insert-free prefix. -/
theorem C8_disconnect_amended_check :
    persists (truncAt 1
        (run okEnv false true "u" none defaultVoiceId c1events).state.trace)
      = [] :=
  (C8_disconnect_amended okEnv false true "u" none defaultVoiceId c1events 1
    (by decide) (by decide)).1

/-- Claim C9 counterexample: the upstream stream raises before any text:
the pipeline aborts and persists nothing — but no error event reaches
the caller either (the outer except swallows it and only logs
server-side), contradicting the claimed single propagated error event
when no bytes were sent. -/
theorem C9_error_not_propagated_example :
    (run okEnv false true "u" none defaultVoiceId c9events).callerError = false
    ∧ persists (run okEnv false true "u" none defaultVoiceId c9events).state.trace
      = []
    ∧ chunkSeq (run okEnv false true "u" none defaultVoiceId c9events).state.trace
      = []
    ∧ (run okEnv false true "u" none defaultVoiceId c9events).state.trace
      = [Ev.errorLog] := by
  decide

/-- Claim C9 (amended): if the upstream generation stream fails before
producing any text, the pipeline aborts: no turn is persisted, no audio
is emitted, and the stream ends silently — no error is surfaced to the
caller (whether or not bytes were sent); the failure is only logged. -/
theorem C9_upstream_failure_amended (env : Env) (pcm hasConv : Bool)
    (userMsg : String) (vp : Option String) (dflt : String)
    (events : List GenEvent) (h : errorBeforeText events = true) :
    persists (run env pcm hasConv userMsg vp dflt events).state.trace = []
    ∧ chunkSeq (run env pcm hasConv userMsg vp dflt events).state.trace = []
    ∧ (run env pcm hasConv userMsg vp dflt events).callerError = false := by
  have hre := runEvents_errorBeforeText env pcm (voiceOr vp dflt) events
    initState h
  unfold run
  simp only [hre]
  simp [initState, persists_append, chunkSeq_append, persists_errorLog,
    chunkSeq_errorLog, persists, chunkSeq]

/-- Witness: a stream that raises immediately persists nothing, emits
nothing, surfaces nothing. -/
theorem C9_upstream_failure_amended_check :
    persists (run c4env true false "x" none defaultVoiceId c9events).state.trace
        = []
    ∧ chunkSeq (run c4env true false "x" none defaultVoiceId c9events).state.trace
        = []
    ∧ (run c4env true false "x" none defaultVoiceId c9events).callerError
        = false :=
  C9_upstream_failure_amended c4env true false "x" none defaultVoiceId
    c9events (by decide)

/-- Claim C10: an explicit, non-empty voice identifier outside the four
predefined voices makes the endpoint fail with 400 before anything runs
(no generation stream, no synthesis call, no audio byte); with no voice
identifier supplied, the environment default is the voice of every
synthesis call of the request. -/
theorem C10_voice_validation (dflt : String) (flagEnv : Option (List Char))
    (accept platform : List Char) (userMsg : String) (hasConv : Bool)
    (env : Env) (events : List GenEvent) :
    (∀ v : String, v ∉ validVoiceIds → v ≠ "" →
        voiceChat dflt flagEnv accept platform (some v) userMsg hasConv env
            events
          = Except.error 400)
    ∧ (∀ resp, voiceChat dflt flagEnv accept platform none userMsg hasConv env
            events
          = Except.ok resp →
        ∀ x ∈ callVoices resp.out.state.trace, x = dflt) := by
  constructor
  · intro v hv hne
    have hsel : voiceOr (some v) dflt = v := by simp [voiceOr, hne]
    unfold voiceChat
    rw [hsel]
    simp [hv]
  · intro resp h
    unfold voiceChat at h
    by_cases hv : voiceOr none dflt ∈ validVoiceIds
    · simp only [hv, if_true, Except.ok.injEq] at h
      subst h
      have hall := run_callOk env
        (pcmRequested (pcmFlagEnabled flagEnv) accept platform) hasConv
        userMsg none dflt events
      exact callVoices_of_callOk _ _ _ hall
    · simp [hv] at h

/-- Witness: the id "bogus" is rejected with 400, and with no explicit
voice every synthesis call of a run uses the default voice. -/
theorem C10_voice_validation_check :
    voiceChat defaultVoiceId none ([] : List Char) [] (some "bogus") "u" true
        okEnv c8events
      = Except.error 400
    ∧ ∀ x ∈ callVoices c10resp.out.state.trace, x = defaultVoiceId := by
  constructor
  · exact (C10_voice_validation defaultVoiceId none [] [] "u" true okEnv
      c8events).1 "bogus" (by decide) (by decide)
  · exact (C10_voice_validation defaultVoiceId none [] [] "u" true okEnv
      c8events).2 c10resp (by decide)

end CE
